import Mathlib

/-!
Verification of the `Async` drain of the slog-extra crate (src/lib.rs): an
asynchronous dispatch adapter that captures each log record into an owned,
thread-transportable message, enqueues it on an unbounded mpsc channel, and
replays it from a single worker thread into a wrapped drain.

The Rust source is shallowly embedded: pure data becomes inductive types,
the serializer's mutation becomes explicit state passing, the channel is a
FIFO queue with a receiver-liveness flag, and the worker thread is a
two-state step machine over the stream of dequeued messages.
-/

namespace SlogExtra

/-- `slog::Level`: the ordered severity enum (six levels). -/
inductive Level where
  | critical
  | error
  | warning
  | info
  | debug
  | trace
deriving DecidableEq, Repr

/-- `slog::Error`: the error type a key/value serialization step may report
(`slog::Result = Result<(), slog::Error>`). Its variants are opaque to this
crate; the code only propagates it. -/
inductive SlogError where
  | io
  | fmtError
deriving DecidableEq, Repr

/-- The owned value stored inside a captured `SingleKV` entry: the closed set
of kinds the `ToSendSerializer` produces. Primitive numeric values are carried
as their mathematical contents (`Nat`/`Int`); `f32`/`f64` values are carried as
their (opaque) bit patterns, since the code only moves them, never computes on
them. Borrowed text has been promoted to an owned `String`. -/
inductive OwnedVal where
  | oBool (b : Bool)
  | oUnit
  | oNone
  | oChar (c : Char)
  | oU8 (n : Nat)
  | oI8 (n : Int)
  | oU16 (n : Nat)
  | oI16 (n : Int)
  | oU32 (n : Nat)
  | oI32 (n : Int)
  | oU64 (n : Nat)
  | oI64 (n : Int)
  | oUsize (n : Nat)
  | oIsize (n : Int)
  | oF32 (bits : Nat)
  | oF64 (bits : Nat)
  | oStr (s : String)
deriving DecidableEq, Repr

/-- A value attached to a structured field of a log call, before capture: the
closed set of kinds the `Serializer` trait dispatches on. `vStr` is borrowed
text (`&str`); `vArgs` is a `fmt::Arguments` value, identified with the text it
renders to (its rendering is deterministic and resolved eagerly by
`fmt::format`). -/
inductive FieldVal where
  | vBool (b : Bool)
  | vUnit
  | vNone
  | vChar (c : Char)
  | vU8 (n : Nat)
  | vI8 (n : Int)
  | vU16 (n : Nat)
  | vI16 (n : Int)
  | vU32 (n : Nat)
  | vI32 (n : Int)
  | vU64 (n : Nat)
  | vI64 (n : Int)
  | vUsize (n : Nat)
  | vIsize (n : Int)
  | vF32 (bits : Nat)
  | vF64 (bits : Nat)
  | vStr (s : String)
  | vArgs (rendered : String)
deriving DecidableEq, Repr

/-- `slog::SingleKV` as stored in the owned record: an owned key paired with
one owned value. -/
structure SingleKV where
  key : String
  val : OwnedVal
deriving DecidableEq, Repr

/-- `type RecordValues = Vec<Box<slog::KV+Send>>;` — the ordered sequence of
captured owned entries. -/
def RecordValues := List SingleKV
deriving DecidableEq, Repr

/-- `struct ToSendSerializer { record_values: RecordValues }`. -/
structure ToSendSerializer where
  record_values : List SingleKV
deriving DecidableEq, Repr

/-- `ToSendSerializer::new`: starts with an empty entry vector. -/
def ToSendSerializer.new : ToSendSerializer := ⟨[]⟩

/-- `ToSendSerializer::finish`: returns the accumulated entries. -/
def ToSendSerializer.finish (s : ToSendSerializer) : List SingleKV :=
  s.record_values

/-- `String::from` / `str::to_owned`: promoting borrowed text to owned text
preserves its contents. -/
def toOwnedStr (s : String) : String := s

/-- `fmt::format(args)`: renders a `fmt::Arguments` value (identified with its
rendered text) to an owned `String`. -/
def fmtFormat (rendered : String) : String := rendered

/-- `ToSendSerializer::emit_bool`: pushes an owned entry, returns `Ok(())`. -/
def emit_bool (ser : ToSendSerializer) (key : String) (val : Bool) :
    Except SlogError ToSendSerializer :=
  .ok ⟨ser.record_values ++ [⟨toOwnedStr key, .oBool val⟩]⟩

/-- `ToSendSerializer::emit_unit`. -/
def emit_unit (ser : ToSendSerializer) (key : String) :
    Except SlogError ToSendSerializer :=
  .ok ⟨ser.record_values ++ [⟨toOwnedStr key, .oUnit⟩]⟩

/-- `ToSendSerializer::emit_none`: stores `None : Option<()>`. -/
def emit_none (ser : ToSendSerializer) (key : String) :
    Except SlogError ToSendSerializer :=
  .ok ⟨ser.record_values ++ [⟨toOwnedStr key, .oNone⟩]⟩

/-- `ToSendSerializer::emit_char`. -/
def emit_char (ser : ToSendSerializer) (key : String) (val : Char) :
    Except SlogError ToSendSerializer :=
  .ok ⟨ser.record_values ++ [⟨toOwnedStr key, .oChar val⟩]⟩

/-- `ToSendSerializer::emit_u8`. -/
def emit_u8 (ser : ToSendSerializer) (key : String) (val : Nat) :
    Except SlogError ToSendSerializer :=
  .ok ⟨ser.record_values ++ [⟨toOwnedStr key, .oU8 val⟩]⟩

/-- `ToSendSerializer::emit_i8`. -/
def emit_i8 (ser : ToSendSerializer) (key : String) (val : Int) :
    Except SlogError ToSendSerializer :=
  .ok ⟨ser.record_values ++ [⟨toOwnedStr key, .oI8 val⟩]⟩

/-- `ToSendSerializer::emit_u16`. -/
def emit_u16 (ser : ToSendSerializer) (key : String) (val : Nat) :
    Except SlogError ToSendSerializer :=
  .ok ⟨ser.record_values ++ [⟨toOwnedStr key, .oU16 val⟩]⟩

/-- `ToSendSerializer::emit_i16`. -/
def emit_i16 (ser : ToSendSerializer) (key : String) (val : Int) :
    Except SlogError ToSendSerializer :=
  .ok ⟨ser.record_values ++ [⟨toOwnedStr key, .oI16 val⟩]⟩

/-- `ToSendSerializer::emit_u32`. -/
def emit_u32 (ser : ToSendSerializer) (key : String) (val : Nat) :
    Except SlogError ToSendSerializer :=
  .ok ⟨ser.record_values ++ [⟨toOwnedStr key, .oU32 val⟩]⟩

/-- `ToSendSerializer::emit_i32`. -/
def emit_i32 (ser : ToSendSerializer) (key : String) (val : Int) :
    Except SlogError ToSendSerializer :=
  .ok ⟨ser.record_values ++ [⟨toOwnedStr key, .oI32 val⟩]⟩

/-- `ToSendSerializer::emit_f32`: the float value is moved by value; its bit
pattern is preserved. -/
def emit_f32 (ser : ToSendSerializer) (key : String) (bits : Nat) :
    Except SlogError ToSendSerializer :=
  .ok ⟨ser.record_values ++ [⟨toOwnedStr key, .oF32 bits⟩]⟩

/-- `ToSendSerializer::emit_u64`. -/
def emit_u64 (ser : ToSendSerializer) (key : String) (val : Nat) :
    Except SlogError ToSendSerializer :=
  .ok ⟨ser.record_values ++ [⟨toOwnedStr key, .oU64 val⟩]⟩

/-- `ToSendSerializer::emit_i64`. -/
def emit_i64 (ser : ToSendSerializer) (key : String) (val : Int) :
    Except SlogError ToSendSerializer :=
  .ok ⟨ser.record_values ++ [⟨toOwnedStr key, .oI64 val⟩]⟩

/-- `ToSendSerializer::emit_f64`. -/
def emit_f64 (ser : ToSendSerializer) (key : String) (bits : Nat) :
    Except SlogError ToSendSerializer :=
  .ok ⟨ser.record_values ++ [⟨toOwnedStr key, .oF64 bits⟩]⟩

/-- `ToSendSerializer::emit_usize`. -/
def emit_usize (ser : ToSendSerializer) (key : String) (val : Nat) :
    Except SlogError ToSendSerializer :=
  .ok ⟨ser.record_values ++ [⟨toOwnedStr key, .oUsize val⟩]⟩

/-- `ToSendSerializer::emit_isize`. -/
def emit_isize (ser : ToSendSerializer) (key : String) (val : Int) :
    Except SlogError ToSendSerializer :=
  .ok ⟨ser.record_values ++ [⟨toOwnedStr key, .oIsize val⟩]⟩

/-- `ToSendSerializer::emit_str`: copies the borrowed text to an owned
string. -/
def emit_str (ser : ToSendSerializer) (key : String) (val : String) :
    Except SlogError ToSendSerializer :=
  .ok ⟨ser.record_values ++ [⟨toOwnedStr key, .oStr (toOwnedStr val)⟩]⟩

/-- `ToSendSerializer::emit_arguments`: eagerly renders the format arguments
with `fmt::format` and stores the owned string. -/
def emit_arguments (ser : ToSendSerializer) (key : String) (val : String) :
    Except SlogError ToSendSerializer :=
  .ok ⟨ser.record_values ++ [⟨toOwnedStr key, .oStr (fmtFormat val)⟩]⟩

/-- The dispatch a `SingleKV`-style field performs when serialized: its value
kind selects the corresponding `emit_*` method of the serializer. -/
def serializeField (ser : ToSendSerializer) (key : String) (v : FieldVal) :
    Except SlogError ToSendSerializer :=
  match v with
  | .vBool b => emit_bool ser key b
  | .vUnit => emit_unit ser key
  | .vNone => emit_none ser key
  | .vChar c => emit_char ser key c
  | .vU8 n => emit_u8 ser key n
  | .vI8 n => emit_i8 ser key n
  | .vU16 n => emit_u16 ser key n
  | .vI16 n => emit_i16 ser key n
  | .vU32 n => emit_u32 ser key n
  | .vI32 n => emit_i32 ser key n
  | .vU64 n => emit_u64 ser key n
  | .vI64 n => emit_i64 ser key n
  | .vUsize n => emit_usize ser key n
  | .vIsize n => emit_isize ser key n
  | .vF32 bits => emit_f32 ser key bits
  | .vF64 bits => emit_f64 ser key bits
  | .vStr s => emit_str ser key s
  | .vArgs a => emit_arguments ser key a

/-- A key/value pair of a log record as seen by `record.values()`: either a
well-formed field (key and closed-kind value, serialized through the
dispatcher above) or a pair whose own `serialize` implementation reports a
`slog::Error`. -/
inductive KVIn where
  | field (key : String) (val : FieldVal)
  | failing (e : SlogError)
deriving DecidableEq, Repr

/-- `kv.serialize(record, &mut ser)` for one key/value pair. -/
def KVIn.serialize (kv : KVIn) (ser : ToSendSerializer) :
    Except SlogError ToSendSerializer :=
  match kv with
  | .field key v => serializeField ser key v
  | .failing e => .error e

/-- The capture loop of `Async::log`:
`for kv in record.values() { try!(kv.serialize(record, &mut ser)) }` —
serializes each pair in order, stopping at the first error. -/
def serializeAll (ser : ToSendSerializer) : List KVIn →
    Except SlogError ToSendSerializer
  | [] => .ok ser
  | kv :: rest =>
    match kv.serialize ser with
    | .ok ser' => serializeAll ser' rest
    | .error e => .error e

/-- The owned entry `serializeField` produces for a key and value: the
captured form of the field. -/
def captureEntry (key : String) (v : FieldVal) : SingleKV :=
  match v with
  | .vBool b => ⟨key, .oBool b⟩
  | .vUnit => ⟨key, .oUnit⟩
  | .vNone => ⟨key, .oNone⟩
  | .vChar c => ⟨key, .oChar c⟩
  | .vU8 n => ⟨key, .oU8 n⟩
  | .vI8 n => ⟨key, .oI8 n⟩
  | .vU16 n => ⟨key, .oU16 n⟩
  | .vI16 n => ⟨key, .oI16 n⟩
  | .vU32 n => ⟨key, .oU32 n⟩
  | .vI32 n => ⟨key, .oI32 n⟩
  | .vU64 n => ⟨key, .oU64 n⟩
  | .vI64 n => ⟨key, .oI64 n⟩
  | .vUsize n => ⟨key, .oUsize n⟩
  | .vIsize n => ⟨key, .oIsize n⟩
  | .vF32 bits => ⟨key, .oF32 bits⟩
  | .vF64 bits => ⟨key, .oF64 bits⟩
  | .vStr s => ⟨key, .oStr s⟩
  | .vArgs a => ⟨key, .oStr a⟩

/-- `slog::OwnedKVList`: the logger's accumulated contextual key/value list.
It is reference-counted and never mutated after attachment, so `clone()` is
content-preserving sharing; its entries are opaque to this crate. -/
def OwnedKVList := List SingleKV
deriving DecidableEq, Repr

/-- `OwnedKVList::clone`: cheap shared handle, same contents. -/
def OwnedKVList.clone (l : OwnedKVList) : OwnedKVList := l

/-- The data `Async::log` reads from the borrowed `slog::Record`: the message
(`fmt::Arguments`, identified with its rendered text), the level, the static
location metadata, the borrowed target and the per-call key/value pairs. -/
structure RecordIn where
  msg : String
  level : Level
  file : String
  line : Nat
  column : Nat
  function : String
  module : String
  target : String
  values : List KVIn
deriving DecidableEq, Repr

/-- `struct AsyncRecord`: the owned snapshot sent to the worker thread. -/
structure AsyncRecord where
  msg : String
  level : Level
  file : String
  line : Nat
  column : Nat
  function : String
  module : String
  target : String
  logger_values : OwnedKVList
  record_values : List SingleKV
deriving DecidableEq, Repr

/-- `enum AsyncMsg { Record(AsyncRecord), Finish }`. -/
inductive AsyncMsg where
  | Record (r : AsyncRecord)
  | Finish
deriving DecidableEq, Repr

/-- Whether a dispatch message carries a record (is not the shutdown
signal). -/
def AsyncMsg.isRecord : AsyncMsg → Bool
  | .Record _ => true
  | .Finish => false

/-- `io::Error` as produced in this crate: either
`io::Error::new(io::ErrorKind::BrokenPipe, msg)` from `Async::send`, or the
`From<slog::Error>` conversion applied by `try!` in `Async::log`. -/
inductive IoError where
  | brokenPipe (msg : String)
  | fromSlog (e : SlogError)
deriving DecidableEq, Repr

/-- The mpsc channel as seen by a sender: the FIFO sequence of messages
enqueued and not yet received, plus whether the receiving end still exists.
`mpsc::Sender::send` succeeds exactly when the receiver is alive. -/
structure ChannelState where
  queue : List AsyncMsg
  receiverAlive : Bool
deriving DecidableEq, Repr

/-- `mpsc::Sender::send(msg)`: enqueues at the back if the receiver is alive,
otherwise fails with `SendError` (carrying the message back). -/
def senderSend (st : ChannelState) (msg : AsyncMsg) :
    Except AsyncMsg ChannelState :=
  if st.receiverAlive then .ok ⟨st.queue ++ [msg], st.receiverAlive⟩
  else .error msg

namespace Async

/-- `Async::send`: enqueues `AsyncMsg::Record(r)` through the thread's cached
sender, mapping a send failure to a `BrokenPipe` `io::Error`. Returns the
updated channel on success. -/
def send (st : ChannelState) (r : AsyncRecord) :
    Except IoError ChannelState :=
  match senderSend st (AsyncMsg.Record r) with
  | .ok st' => .ok st'
  | .error _ => .error (IoError.brokenPipe "Send failed")

/-- The `AsyncRecord` that `Async::log` assembles from a record whose capture
produced the entries `captured`: eagerly formatted message, copied metadata,
owned target, cloned contextual list, captured per-call entries. -/
def buildRecord (record : RecordIn) (logger_values : OwnedKVList)
    (captured : List SingleKV) : AsyncRecord :=
  { msg := fmtFormat record.msg
    level := record.level
    file := record.file
    line := record.line
    column := record.column
    function := record.function
    module := record.module
    target := toOwnedStr record.target
    logger_values := OwnedKVList.clone logger_values
    record_values := captured }

/-- `impl Drain for Async — fn log`: runs the capture loop over the record's
key/value pairs (propagating the first serialization error without touching
the channel), then assembles the owned record and enqueues it. Returns the
resulting channel state and the call's result; on error the channel state is
returned unchanged. -/
def log (st : ChannelState) (record : RecordIn)
    (logger_values : OwnedKVList) : ChannelState × Except IoError Unit :=
  match serializeAll ToSendSerializer.new record.values with
  | .error e => (st, .error (IoError.fromSlog e))
  | .ok ser =>
    match send st (buildRecord record logger_values ser.finish) with
    | .ok st' => (st', .ok ())
    | .error e => (st, .error e)

end Async

/-- The argument pair of the wrapped drain's entry point
`drain.log(&record, &logger_values)`: the record the worker reconstructs
(via `RecordStatic` and `Record::new`) and the contextual list it passes
alongside. The reconstructed record's message is
`format_args!("\x7b\x7d", r.msg)`, i.e. text rendering to `r.msg`; its values
are the boxed captured entries passed by reference. -/
structure SinkCall where
  msg : String
  level : Level
  file : String
  line : Nat
  column : Nat
  function : String
  module : String
  target : String
  values : List SingleKV
  logger_values : OwnedKVList
deriving DecidableEq, Repr

/-- The worker thread's replay of one `AsyncRecord` (the
`AsyncMsg::Record(r)` arm of the loop): reconstructs the `RecordStatic`
metadata, re-borrows the captured values, and invokes the wrapped drain. -/
def replayRecord (r : AsyncRecord) : SinkCall :=
  { msg := fmtFormat r.msg
    level := r.level
    file := r.file
    line := r.line
    column := r.column
    function := r.function
    module := r.module
    target := r.target
    values := r.record_values
    logger_values := r.logger_values }

/-- `slog::Never`: the uninhabited error type the wrapped drain is required
to have (`D: slog::Drain<Error=slog::Never>`). -/
def Never := Empty

/-- `Result::unwrap` on the wrapped drain's `Result<(), Never>`: total, since
the error branch carries an uninhabited value. -/
def unwrapNever : Except Never Unit → Unit
  | .ok u => u
  | .error e => e.elim

/-- The worker thread's state machine: `Running` (blocked on `rx.recv()`)
or `Stopped` (the closure has returned). -/
inductive WorkerState where
  | Running
  | Stopped
deriving DecidableEq, Repr

/-- One iteration of the worker loop on a received message: a `Record` is
replayed into the wrapped sink and the loop continues; `Finish` makes the
closure return. A stopped worker processes nothing. Produces the (zero or
one) sink invocations made by the iteration. -/
def workerStep (ws : WorkerState) (msg : AsyncMsg) :
    WorkerState × List SinkCall :=
  match ws, msg with
  | .Running, .Record r => (.Running, [replayRecord r])
  | .Running, .Finish => (.Stopped, [])
  | .Stopped, _ => (.Stopped, [])

/-- The worker consuming a FIFO-ordered stream of messages: iterates
`workerStep`, concatenating the sink invocations in order. -/
def workerRun (ws : WorkerState) : List AsyncMsg →
    WorkerState × List SinkCall
  | [] => (ws, [])
  | msg :: rest =>
    let (ws', out) := workerStep ws msg
    let (ws'', outs) := workerRun ws' rest
    (ws'', out ++ outs)

/-- `impl Drop for Async — fn drop`, composed with the join: drop sends
`AsyncMsg::Finish` after the already-enqueued messages and then blocks on
`join()` until the worker has consumed the stream; the result is the ordered
list of sink invocations performed before `drop` returns, together with the
worker's final state. -/
def dropTeardown (pending : List AsyncMsg) : WorkerState × List SinkCall :=
  workerRun WorkerState.Running (pending ++ [AsyncMsg.Finish])

/-- The observable content of a field value, as the spec describes it: what a
consumer of the original (still borrowed) field would see. Primitives are
observed by value, borrowed text by its contents, and format arguments by the
text they render to. -/
def observeVal : FieldVal → OwnedVal
  | .vBool b => .oBool b
  | .vUnit => .oUnit
  | .vNone => .oNone
  | .vChar c => .oChar c
  | .vU8 n => .oU8 n
  | .vI8 n => .oI8 n
  | .vU16 n => .oU16 n
  | .vI16 n => .oI16 n
  | .vU32 n => .oU32 n
  | .vI32 n => .oI32 n
  | .vU64 n => .oU64 n
  | .vI64 n => .oI64 n
  | .vUsize n => .oUsize n
  | .vIsize n => .oIsize n
  | .vF32 bits => .oF32 bits
  | .vF64 bits => .oF64 bits
  | .vStr s => .oStr s
  | .vArgs a => .oStr a

/-- The arguments the wrapped sink would observe if it were invoked directly
and synchronously with the original event (whose per-call fields are
`fields`) and the contextual field list, as the spec describes the direct
path: same level, location, target, the message text the arguments render to,
the observable content of each per-call field in order, and the contextual
list itself. -/
def directSinkCall (record : RecordIn) (lv : OwnedKVList)
    (fields : List (String × FieldVal)) : SinkCall :=
  { msg := record.msg
    level := record.level
    file := record.file
    line := record.line
    column := record.column
    function := record.function
    module := record.module
    target := record.target
    values := fields.map fun p => ⟨p.1, observeVal p.2⟩
    logger_values := lv }

/-- The whole-adapter state: whether the `Async` value is still alive (not
yet dropped), the channel contents, and the worker thread's state. -/
structure AdapterState where
  alive : Bool
  chan : ChannelState
  worker : WorkerState
deriving DecidableEq, Repr

/-- The state right after `Async::new`: adapter alive, empty channel with the
receiver held by the freshly spawned worker, worker `Running`. -/
def initState : AdapterState :=
  ⟨true, ⟨[], true⟩, WorkerState.Running⟩

/-- The events of the adapter system. `logCall` is any invocation of the
public `Drain::log` (it can only enqueue `AsyncMsg::Record`, never `Finish`);
`recv` is one iteration of the worker loop consuming the head of the queue
(the receiver disappears exactly when the worker closure returns); `dropCall`
is `Drop::drop`, the only operation that enqueues `AsyncMsg::Finish`
(best-effort), and it requires the adapter to still be alive. -/
inductive SysStep : AdapterState → AdapterState → Prop where
  | logCall (s : AdapterState) (record : RecordIn) (lv : OwnedKVList) :
      s.alive = true →
      SysStep s ⟨s.alive, (Async.log s.chan record lv).1, s.worker⟩
  | recv (s : AdapterState) (m : AsyncMsg) (rest : List AsyncMsg) :
      s.chan.queue = m :: rest → s.worker = WorkerState.Running →
      SysStep s ⟨s.alive,
        ⟨rest,
          if (workerStep s.worker m).1 = WorkerState.Stopped then false
          else s.chan.receiverAlive⟩,
        (workerStep s.worker m).1⟩
  | dropCall (s : AdapterState) :
      s.alive = true →
      SysStep s ⟨false,
        (match senderSend s.chan AsyncMsg.Finish with
         | .ok st' => st'
         | .error _ => s.chan),
        s.worker⟩

/-- The states reachable from `Async::new` by any interleaving of log calls,
worker iterations and the final drop. -/
inductive Reachable : AdapterState → Prop where
  | init : Reachable initState
  | step {s s' : AdapterState} : Reachable s → SysStep s s' → Reachable s'

/-! Helper lemmas, shared by the claim theorems below. -/

lemma serializeField_eq (ser : ToSendSerializer) (key : String) (v : FieldVal) :
    serializeField ser key v =
      Except.ok ⟨ser.record_values ++ [captureEntry key v]⟩ := by
  cases v <;> rfl

lemma captureEntry_observe (key : String) (v : FieldVal) :
    captureEntry key v = ⟨key, observeVal v⟩ := by
  cases v <;> rfl

lemma serializeAll_fields (fields : List (String × FieldVal)) :
    ∀ ser : ToSendSerializer,
      serializeAll ser (fields.map fun p => KVIn.field p.1 p.2) =
        Except.ok ⟨ser.record_values ++ fields.map fun p => captureEntry p.1 p.2⟩ := by
  induction fields with
  | nil => intro ser; simp [serializeAll]
  | cons p fields ih =>
    intro ser
    simp [serializeAll, KVIn.serialize, serializeField_eq, ih]

lemma serializeAll_first_error (e : SlogError) (post : List KVIn) :
    ∀ (pre : List (String × FieldVal)) (ser : ToSendSerializer),
      serializeAll ser
          ((pre.map fun p => KVIn.field p.1 p.2) ++ KVIn.failing e :: post) =
        Except.error e := by
  intro pre
  induction pre with
  | nil => intro ser; simp [serializeAll, KVIn.serialize]
  | cons p pre ih =>
    intro ser
    simp [serializeAll, KVIn.serialize, serializeField_eq, ih]

lemma send_alive (st : ChannelState) (r : AsyncRecord)
    (h : st.receiverAlive = true) :
    Async.send st r =
      Except.ok ⟨st.queue ++ [AsyncMsg.Record r], st.receiverAlive⟩ := by
  simp [Async.send, senderSend, h]

lemma send_dead (st : ChannelState) (r : AsyncRecord)
    (h : st.receiverAlive = false) :
    Async.send st r = Except.error (IoError.brokenPipe "Send failed") := by
  simp [Async.send, senderSend, h]

lemma log_good (st : ChannelState) (record : RecordIn) (lv : OwnedKVList)
    (fields : List (String × FieldVal))
    (hf : record.values = fields.map fun p => KVIn.field p.1 p.2)
    (ha : st.receiverAlive = true) :
    Async.log st record lv =
      (⟨st.queue ++ [AsyncMsg.Record (Async.buildRecord record lv
          (fields.map fun p => captureEntry p.1 p.2))], st.receiverAlive⟩,
        Except.ok ()) := by
  unfold Async.log
  rw [hf, serializeAll_fields]
  simp [ToSendSerializer.finish, ToSendSerializer.new, send_alive _ _ ha]

lemma log_chan_cases (st : ChannelState) (record : RecordIn)
    (lv : OwnedKVList) :
    (Async.log st record lv).1 = st ∨
      ∃ r, (Async.log st record lv).1 =
        ⟨st.queue ++ [AsyncMsg.Record r], st.receiverAlive⟩ := by
  unfold Async.log
  cases hs : serializeAll ToSendSerializer.new record.values with
  | error e => left; rfl
  | ok ser =>
    cases ha : st.receiverAlive with
    | false => left; simp [send_dead _ _ ha]
    | true =>
      right
      refine ⟨Async.buildRecord record lv ser.finish, ?_⟩
      simp [send_alive _ _ ha, ha]

lemma workerRun_map_record (rs : List AsyncRecord) :
    workerRun WorkerState.Running (rs.map AsyncMsg.Record ++ [AsyncMsg.Finish]) =
      (WorkerState.Stopped, rs.map replayRecord) := by
  induction rs with
  | nil => rfl
  | cons r rs ih => simp [workerRun, workerStep, ih]

lemma workerRun_stopped (msgs : List AsyncMsg) :
    workerRun WorkerState.Stopped msgs = (WorkerState.Stopped, []) := by
  induction msgs with
  | nil => rfl
  | cons m msgs ih => cases m <;> simp [workerRun, workerStep, ih]

lemma workerRun_tagged (q : List (Nat × AsyncRecord)) :
    workerRun WorkerState.Running
        ((q.map fun p => AsyncMsg.Record p.2) ++ [AsyncMsg.Finish]) =
      (WorkerState.Stopped, q.map fun p => replayRecord p.2) := by
  induction q with
  | nil => rfl
  | cons p q ih => simp [workerRun, workerStep, ih]

lemma map_snd_replay (l : List (Nat × AsyncRecord)) :
    (l.map fun p => (p.1, replayRecord p.2)).map Prod.snd =
      (l.map Prod.snd).map replayRecord := by
  induction l with
  | nil => rfl
  | cons p l ih => simp [ih]

lemma tagged_filter_map (tid : Nat) (q : List (Nat × AsyncRecord)) :
    ((q.map fun p => (p.1, replayRecord p.2)).filter fun p => p.1 == tid) =
      (q.filter fun p => p.1 == tid).map fun p => (p.1, replayRecord p.2) := by
  induction q with
  | nil => rfl
  | cons p q ih =>
    simp only [List.map_cons, List.filter_cons]
    cases h : p.1 == tid <;> simp [h, ih]

lemma log_good_dead (st : ChannelState) (record : RecordIn)
    (lv : OwnedKVList) (fields : List (String × FieldVal))
    (hf : record.values = fields.map fun p => KVIn.field p.1 p.2)
    (ha : st.receiverAlive = false) :
    Async.log st record lv =
      (st, Except.error (IoError.brokenPipe "Send failed")) := by
  unfold Async.log
  rw [hf, serializeAll_fields]
  simp [send_dead _ _ ha]

/-! The claim theorems. -/

/-- Claim C1: dropping the Adapter sends the shutdown message behind every
previously enqueued message and then joins the worker; before the drop
returns, the worker has replayed each enqueued record into the wrapped sink
exactly once and in enqueue order (none dropped, none duplicated), ending in
the `Stopped` state that makes `join` return. -/
theorem drop_replays_each_enqueued_record_exactly_once
    (rs : List AsyncRecord) :
    dropTeardown (rs.map AsyncMsg.Record) =
      (WorkerState.Stopped, rs.map replayRecord) := by
  unfold dropTeardown
  exact workerRun_map_record rs

/-- Claim C2: with `q` the global FIFO order in which tagged records
`(thread, record)` were enqueued into the single channel, the worker delivers
the records to the wrapped sink in exactly that order (first conjunct), and
the delivery order restricted to any one thread equals that thread's own
call order (second conjunct): the global sink order is a linearization
consistent with per-thread program order. -/
theorem delivery_is_fifo_linearization (q : List (Nat × AsyncRecord)) :
    ((workerRun WorkerState.Running
        ((q.map fun p => AsyncMsg.Record p.2) ++ [AsyncMsg.Finish])).2 =
      q.map fun p => replayRecord p.2) ∧
    ∀ tid : Nat,
      ((q.map fun p => (p.1, replayRecord p.2)).filter
          (fun p => p.1 == tid)).map Prod.snd =
        ((q.filter fun p => p.1 == tid).map Prod.snd).map replayRecord := by
  constructor
  · rw [workerRun_tagged]
  · intro tid
    rw [tagged_filter_map, map_snd_replay]

/-- Claim C3: every per-field capture step of the serializer succeeds and
appends exactly one owned entry for that field (first conjunct), so running
the capture loop over the structured fields of one log call yields one owned
entry per field, in the original emission order, with no failure path of its
own (second conjunct). -/
theorem field_capture_total_and_ordered :
    (∀ (ser : ToSendSerializer) (key : String) (v : FieldVal),
        serializeField ser key v =
          Except.ok ⟨ser.record_values ++ [captureEntry key v]⟩) ∧
    ∀ fields : List (String × FieldVal),
      serializeAll ToSendSerializer.new
          (fields.map fun p => KVIn.field p.1 p.2) =
        Except.ok ⟨fields.map fun p => captureEntry p.1 p.2⟩ := by
  constructor
  · exact serializeField_eq
  · intro fields
    simpa [ToSendSerializer.new] using
      serializeAll_fields fields ToSendSerializer.new

/-- Claim C4: for every supported field kind, capturing a key/value pair into
its owned entry succeeds and records a key and value observably equal to the
originals (first conjunct), and the worker's replay hands the captured entries
to the wrapped sink unchanged (second conjunct): capture-then-replay is
observation-preserving for every kind. -/
theorem field_capture_replay_roundtrip :
    (∀ (key : String) (v : FieldVal),
        ∃ ser : ToSendSerializer,
          serializeField ToSendSerializer.new key v = Except.ok ser ∧
            ser.finish = [⟨key, observeVal v⟩]) ∧
    ∀ r : AsyncRecord, (replayRecord r).values = r.record_values := by
  constructor
  · intro key v
    refine ⟨⟨[captureEntry key v]⟩, ?_, ?_⟩
    · simpa [ToSendSerializer.new] using
        serializeField_eq ToSendSerializer.new key v
    · simp [ToSendSerializer.finish, captureEntry_observe]
  · intro r
    rfl

/-- Claim C5: for every event accepted by `log` (fields all well formed,
receiver alive), the message enqueued is an owned record whose replay by the
worker invokes the wrapped sink with arguments observably equal to a direct
synchronous invocation on the original event and contextual fields: same
level and location metadata, same target, the eagerly formatted message text,
the captured per-call fields in order, and the shared contextual list. -/
theorem async_path_refines_direct (st : ChannelState) (record : RecordIn)
    (lv : OwnedKVList) (fields : List (String × FieldVal))
    (hfields : record.values = fields.map fun p => KVIn.field p.1 p.2)
    (halive : st.receiverAlive = true) :
    ∃ r : AsyncRecord,
      Async.log st record lv =
        (⟨st.queue ++ [AsyncMsg.Record r], true⟩, Except.ok ()) ∧
      replayRecord r = directSinkCall record lv fields := by
  refine ⟨Async.buildRecord record lv
    (fields.map fun p => captureEntry p.1 p.2), ?_, ?_⟩
  · rw [log_good st record lv fields hfields halive, halive]
  · simp [replayRecord, Async.buildRecord, directSinkCall, fmtFormat,
      toOwnedStr, OwnedKVList.clone, captureEntry_observe]

/-- Witness for C5 at a concrete event with one `u32` field. -/
theorem async_path_refines_direct_witness :
    ∃ r : AsyncRecord,
      Async.log (⟨[], true⟩ : ChannelState)
          (⟨"hello", Level.info, "lib.rs", 10, 4, "f", "m", "t",
            [KVIn.field "k" (FieldVal.vU32 7)]⟩ : RecordIn)
          ([] : OwnedKVList) =
        (⟨[] ++ [AsyncMsg.Record r], true⟩, Except.ok ()) ∧
      replayRecord r =
        directSinkCall
          (⟨"hello", Level.info, "lib.rs", 10, 4, "f", "m", "t",
            [KVIn.field "k" (FieldVal.vU32 7)]⟩ : RecordIn)
          ([] : OwnedKVList) [("k", FieldVal.vU32 7)] :=
  async_path_refines_direct (⟨[], true⟩ : ChannelState) _ _
    [("k", FieldVal.vU32 7)] rfl rfl

/-- Claim C6: the producer-side enqueue step succeeds exactly when the
receiving end is still alive, in which case the record message is appended to
the queue (no interaction with the worker's progress); it fails exactly when
the receiving end has been torn down, and the only possible error is the
broken-pipe delivery failure; consequently a `log` call with well-formed
fields returns success precisely when its message was enqueued. -/
theorem enqueue_success_and_failure_characterization
    (st : ChannelState) (r : AsyncRecord) :
    ((∃ st', Async.send st r = Except.ok st') ↔ st.receiverAlive = true) ∧
    (Async.send st r = Except.error (IoError.brokenPipe "Send failed") ↔
      st.receiverAlive = false) ∧
    (∀ st', Async.send st r = Except.ok st' →
      st' = ⟨st.queue ++ [AsyncMsg.Record r], st.receiverAlive⟩) ∧
    (∀ e, Async.send st r = Except.error e →
      e = IoError.brokenPipe "Send failed") ∧
    ∀ (record : RecordIn) (lv : OwnedKVList)
      (fields : List (String × FieldVal)),
      record.values = fields.map (fun p => KVIn.field p.1 p.2) →
      (((Async.log st record lv).2 = Except.ok ()) ↔
        st.receiverAlive = true) := by
  cases ha : st.receiverAlive with
  | true =>
    refine ⟨?_, ?_, ?_, ?_, ?_⟩
    · simp [send_alive _ _ ha, ha]
    · simp [send_alive _ _ ha, ha]
    · intro st' h
      rw [send_alive _ _ ha, ha] at h
      exact (Except.ok.inj h).symm
    · intro e h
      rw [send_alive _ _ ha] at h
      exact absurd h (by simp)
    · intro record lv fields hf
      rw [log_good st record lv fields hf ha]
      simp [ha]
  | false =>
    refine ⟨?_, ?_, ?_, ?_, ?_⟩
    · simp [send_dead _ _ ha, ha]
    · simp [send_dead _ _ ha, ha]
    · intro st' h
      rw [send_dead _ _ ha] at h
      exact absurd h (by simp)
    · intro e h
      rw [send_dead _ _ ha] at h
      exact (Except.error.inj h).symm
    · intro record lv fields hf
      rw [log_good_dead st record lv fields hf ha]
      simp [ha]

/-- Witness for C6 at a concrete channel with a live receiver and a concrete
record. -/
theorem enqueue_success_and_failure_characterization_witness :
    ((∃ st', Async.send (⟨[], true⟩ : ChannelState)
        (⟨"w", Level.warning, "lib.rs", 3, 1, "f", "m", "t", [], []⟩ :
          AsyncRecord) = Except.ok st') ↔
      (⟨[], true⟩ : ChannelState).receiverAlive = true) ∧
    (Async.send (⟨[], true⟩ : ChannelState)
        (⟨"w", Level.warning, "lib.rs", 3, 1, "f", "m", "t", [], []⟩ :
          AsyncRecord) =
        Except.error (IoError.brokenPipe "Send failed") ↔
      (⟨[], true⟩ : ChannelState).receiverAlive = false) ∧
    (∀ st', Async.send (⟨[], true⟩ : ChannelState)
        (⟨"w", Level.warning, "lib.rs", 3, 1, "f", "m", "t", [], []⟩ :
          AsyncRecord) = Except.ok st' →
      st' = ⟨[] ++ [AsyncMsg.Record
        (⟨"w", Level.warning, "lib.rs", 3, 1, "f", "m", "t", [], []⟩ :
          AsyncRecord)], (⟨[], true⟩ : ChannelState).receiverAlive⟩) ∧
    (∀ e, Async.send (⟨[], true⟩ : ChannelState)
        (⟨"w", Level.warning, "lib.rs", 3, 1, "f", "m", "t", [], []⟩ :
          AsyncRecord) = Except.error e →
      e = IoError.brokenPipe "Send failed") ∧
    ∀ (record : RecordIn) (lv : OwnedKVList)
      (fields : List (String × FieldVal)),
      record.values = fields.map (fun p => KVIn.field p.1 p.2) →
      (((Async.log (⟨[], true⟩ : ChannelState) record lv).2 =
          Except.ok ()) ↔
        (⟨[], true⟩ : ChannelState).receiverAlive = true) :=
  enqueue_success_and_failure_characterization (⟨[], true⟩ : ChannelState)
    (⟨"w", Level.warning, "lib.rs", 3, 1, "f", "m", "t", [], []⟩ : AsyncRecord)

/-- Claim C7: when a field-serialization step fails while capturing, `log`
returns exactly that error (converted to the crate's error type) and the
channel is left untouched: no message is enqueued for that call, and any
later `log` call behaves exactly as if the failed call had never happened. -/
theorem capture_error_aborts_log_atomically (st : ChannelState)
    (record : RecordIn) (lv : OwnedKVList)
    (pre : List (String × FieldVal)) (e : SlogError) (post : List KVIn)
    (hv : record.values =
      (pre.map fun p => KVIn.field p.1 p.2) ++ KVIn.failing e :: post) :
    Async.log st record lv = (st, Except.error (IoError.fromSlog e)) ∧
    ∀ (record2 : RecordIn) (lv2 : OwnedKVList),
      Async.log (Async.log st record lv).1 record2 lv2 =
        Async.log st record2 lv2 := by
  have hlog : Async.log st record lv =
      (st, Except.error (IoError.fromSlog e)) := by
    unfold Async.log
    rw [hv, serializeAll_first_error]
  exact ⟨hlog, fun record2 lv2 => by rw [hlog]⟩

/-- Witness for C7: a record whose only key/value pair fails to serialize. -/
theorem capture_error_aborts_log_atomically_witness :
    Async.log (⟨[], true⟩ : ChannelState)
        (⟨"oops", Level.error, "lib.rs", 5, 1, "f", "m", "t",
          [KVIn.failing SlogError.io]⟩ : RecordIn) ([] : OwnedKVList) =
      ((⟨[], true⟩ : ChannelState),
        Except.error (IoError.fromSlog SlogError.io)) ∧
    ∀ (record2 : RecordIn) (lv2 : OwnedKVList),
      Async.log (Async.log (⟨[], true⟩ : ChannelState)
          (⟨"oops", Level.error, "lib.rs", 5, 1, "f", "m", "t",
            [KVIn.failing SlogError.io]⟩ : RecordIn)
          ([] : OwnedKVList)).1 record2 lv2 =
        Async.log (⟨[], true⟩ : ChannelState) record2 lv2 :=
  capture_error_aborts_log_atomically (⟨[], true⟩ : ChannelState) _
    ([] : OwnedKVList) [] SlogError.io [] rfl

/-- Claim C8: the worker is a two-state machine: in `Running` it replays a
received record into the wrapped sink and stays `Running`; on the shutdown
message it moves to the terminal `Stopped` state with no replay; and once
stopped it replays nothing on any further stream of messages. -/
theorem worker_two_state_machine :
    (∀ r : AsyncRecord,
      workerStep WorkerState.Running (AsyncMsg.Record r) =
        (WorkerState.Running, [replayRecord r])) ∧
    workerStep WorkerState.Running AsyncMsg.Finish =
      (WorkerState.Stopped, []) ∧
    ∀ msgs : List AsyncMsg,
      workerRun WorkerState.Stopped msgs = (WorkerState.Stopped, []) :=
  ⟨fun _ => rfl, rfl, workerRun_stopped⟩

/-- Claim C9: with the wrapped drain constrained to the uninhabited error
type `Never`, the error branch of the worker's `unwrap` on the replay result
is unreachable: the replay call always returns `Ok` and can never return an
error, so no failure is ever silently skipped. -/
theorem replay_unwrap_error_branch_unreachable :
    ∀ (drainLog : SinkCall → OwnedKVList → Except Never Unit)
      (r : AsyncRecord),
      drainLog (replayRecord r) r.logger_values =
        Except.ok (unwrapNever (drainLog (replayRecord r) r.logger_values)) ∧
      ∀ e : Never,
        drainLog (replayRecord r) r.logger_values ≠ Except.error e := by
  intro drainLog r
  have h : ∀ res : Except Never Unit, res = Except.ok (unwrapNever res) := by
    intro res
    cases res with
    | ok u => cases u; rfl
    | error e => exact nomatch e
  exact ⟨h _, fun e => nomatch e⟩

/-- Claim C10: in every reachable state of the adapter system in which the
Adapter is still alive, the channel holds only record messages (the shutdown
message can only be enqueued by `drop`, and `log` only enqueues records), the
worker is still `Running`, and the receiving end still exists: the worker
cannot have received a shutdown message nor stopped of its own accord. -/
theorem alive_adapter_worker_still_running (s : AdapterState)
    (h : Reachable s) (ha : s.alive = true) :
    (∀ m ∈ s.chan.queue, m.isRecord = true) ∧
      s.worker = WorkerState.Running ∧ s.chan.receiverAlive = true := by
  revert ha
  induction h with
  | init =>
    intro _
    exact ⟨by intro m hm; simp [initState] at hm, rfl, rfl⟩
  | step hr hstep ih =>
    rename_i s0 s1
    cases hstep with
    | logCall record lv hs =>
      intro _
      obtain ⟨hq, hw, hrx⟩ := ih hs
      rcases log_chan_cases s0.chan record lv with hc | ⟨r, hc⟩
      · simp only [hc]
        exact ⟨hq, hw, hrx⟩
      · simp only [hc]
        refine ⟨?_, hw, hrx⟩
        intro m hm
        rcases List.mem_append.mp hm with h1 | h2
        · exact hq m h1
        · rw [List.mem_singleton.mp h2]
          rfl
    | recv m rest hq0 hw0 =>
      intro ha'
      obtain ⟨hq, hw, hrx⟩ := ih ha'
      have hm : m.isRecord = true :=
        hq m (by rw [hq0]; exact List.mem_cons_self m rest)
      cases m with
      | Finish => simp [AsyncMsg.isRecord] at hm
      | Record r =>
        rw [hw0]
        refine ⟨?_, rfl, ?_⟩
        · intro m' hm'
          exact hq m' (by rw [hq0]; exact List.mem_cons_of_mem _ hm')
        · simp [workerStep, hrx]
    | dropCall hs =>
      intro ha'
      exact absurd ha' (by simp)

/-- Witness for C10: the state reached from construction by one successful
log call is alive, and the theorem applies to it. -/
theorem alive_adapter_worker_still_running_witness :
    (∀ m ∈ (Async.log (⟨[], true⟩ : ChannelState)
        (⟨"w", Level.debug, "lib.rs", 1, 1, "f", "m", "t",
          [KVIn.field "k" (FieldVal.vBool true)]⟩ : RecordIn)
        ([] : OwnedKVList)).1.queue, m.isRecord = true) ∧
      WorkerState.Running = WorkerState.Running ∧
      (Async.log (⟨[], true⟩ : ChannelState)
        (⟨"w", Level.debug, "lib.rs", 1, 1, "f", "m", "t",
          [KVIn.field "k" (FieldVal.vBool true)]⟩ : RecordIn)
        ([] : OwnedKVList)).1.receiverAlive = true :=
  alive_adapter_worker_still_running
    ⟨true, (Async.log (⟨[], true⟩ : ChannelState)
      (⟨"w", Level.debug, "lib.rs", 1, 1, "f", "m", "t",
        [KVIn.field "k" (FieldVal.vBool true)]⟩ : RecordIn)
      ([] : OwnedKVList)).1, WorkerState.Running⟩
    (Reachable.step Reachable.init
      (SysStep.logCall initState
        (⟨"w", Level.debug, "lib.rs", 1, 1, "f", "m", "t",
          [KVIn.field "k" (FieldVal.vBool true)]⟩ : RecordIn)
        ([] : OwnedKVList) rfl))
    rfl

end SlogExtra
